import Mathlib

/-!
Verification of the FreshRSS MCP server client (src/index.ts) against its
natural-language specification.

The TypeScript source is shallowly embedded: pure helpers become Lean
functions, each HTTP-performing method becomes a function of an explicit
oracle describing the network responses it sees, and thrown exceptions
become the error side of an Except value.  JavaScript strings are modelled
by Lean String; every string manipulation the source performs (split, trim,
regex search, join) is re-implemented structurally over the underlying
character list so that concrete runs reduce inside the kernel.
-/

namespace FreshRSS

/-- Whitespace test standing for the JavaScript regex class backslash-s
(space, tab, newline, carriage return, vertical tab, form feed). -/
def isJsWs (c : Char) : Bool :=
  c == ' ' || c == '\t' || c == '\n' || c == '\r' || c == '\x0b' || c == '\x0c'

/-- Characters of a trimmed string: drop JS whitespace from both ends.
Models String.prototype.trim. -/
def trimChars (cs : List Char) : List Char :=
  ((cs.dropWhile isJsWs).reverse.dropWhile isJsWs).reverse

/-- Models the JavaScript string method trim. -/
def jsTrim (s : String) : String := String.mk (trimChars s.data)

/-- Split a character list at every occurrence of the separator character;
models String.prototype.split with a single-character separator (so the
empty string maps to a single empty field, as in JavaScript). -/
def splitSep (sep : Char) : List Char → List (List Char)
  | [] => [[]]
  | c :: rest =>
      let r := splitSep sep rest
      if c == sep then [] :: r
      else
        match r with
        | [] => [[c]]
        | h :: t => (c :: h) :: t

/-- String-level wrapper for splitSep. -/
def jsSplit (sep : Char) (s : String) : List String :=
  (splitSep sep s.data).map String.mk

/-- Models Array.prototype.join with a comma separator. -/
def commaJoin : List String → String
  | [] => ""
  | [s] => s
  | s :: rest => s ++ "," ++ commaJoin rest

/-!
chunkArray (src/index.ts lines 40-47):

  function chunkArray(arr, chunkSize) \x7b
    if (chunkSize <= 0) return [arr];
    const out = [];
    for (let i = 0; i < arr.length; i += chunkSize) out.push(arr.slice(i, i + chunkSize));
    return out;
  \x7d

The loop pushes one slice per index i = j * chunkSize with j * chunkSize <
arr.length, i.e. for j < ceil(arr.length / chunkSize); it is embedded in that
closed form, with slice(i, i + chunkSize) rendered as drop i then take
chunkSize (both clamp, exactly like slice).
-/

/-- Embedding of chunkArray from the source. -/
def chunkArray {α : Type} (arr : List α) (chunkSize : Int) : List (List α) :=
  if chunkSize ≤ 0 then [arr]
  else
    let c := chunkSize.toNat
    (List.range ((arr.length + c - 1) / c)).map
      (fun j => (arr.drop (j * c)).take c)

theorem chunkArray_length_of_pos {α : Type} (arr : List α) (c : Nat) (hc : 0 < c) :
    (chunkArray arr (c : Int)).length = (arr.length + c - 1) / c := by
  have hnot : ¬ ((c : Int) ≤ 0) := by exact_mod_cast Nat.not_le.mpr hc
  simp [chunkArray, hnot]

theorem ceil_mul_ge (n c : Nat) (hc : 0 < c) : n ≤ ((n + c - 1) / c) * c := by
  have hdm := Nat.div_add_mod (n + c - 1) c
  have hlt : (n + c - 1) % c < c := Nat.mod_lt _ hc
  rw [Nat.mul_comm] at hdm
  omega

/-- Auxiliary join lemma: as long as n slices of width c cover the list,
concatenating them recovers the list. -/
theorem join_slices {α : Type} (c : Nat) (hc : 0 < c) :
    ∀ (n : Nat) (arr : List α), arr.length ≤ n * c →
      ((List.range n).map (fun j => (arr.drop (j * c)).take c)).flatten = arr := by
  intro n
  induction n with
  | zero =>
      intro arr h
      have : arr = [] := List.eq_nil_of_length_eq_zero (by omega)
      simp [this]
  | succ n ih =>
      intro arr h
      rw [Nat.succ_mul] at h
      rw [List.range_succ_eq_map]
      simp only [List.map_cons, List.map_map, List.flatten_cons]
      have hshift : ∀ j : Nat,
          ((arr.drop ((j + 1) * c)).take c) = (((arr.drop c).drop (j * c)).take c) := by
        intro j
        rw [List.drop_drop]
        ring_nf
      have hmapeq :
          (List.range n).map ((fun j => (arr.drop (j * c)).take c) ∘ Nat.succ) =
            (List.range n).map (fun j => (((arr.drop c).drop (j * c)).take c)) := by
        apply List.map_congr_left
        intro j _
        simpa [Function.comp, Nat.succ_eq_add_one] using hshift j
      rw [hmapeq, ih (arr.drop c) (by simp [List.length_drop]; omega)]
      simp

theorem chunkArray_flatten {α : Type} (arr : List α) (c : Nat) (hc : 0 < c) :
    ((chunkArray arr (c : Int)).flatten) = arr := by
  have hnot : ¬ ((c : Int) ≤ 0) := by exact_mod_cast Nat.not_le.mpr hc
  simp only [chunkArray, if_neg hnot, Int.toNat_ofNat]
  exact join_slices c hc _ arr (ceil_mul_ge arr.length c hc)

theorem chunkArray_full_batches {α : Type} (arr : List α) (c : Nat) (hc : 0 < c)
    (i : Nat) (hi : i + 1 < (chunkArray arr (c : Int)).length) :
    ((chunkArray arr (c : Int)).getD i []).length = c := by
  have hnot : ¬ ((c : Int) ≤ 0) := by exact_mod_cast Nat.not_le.mpr hc
  simp only [chunkArray, if_neg hnot, Int.toNat_ofNat] at hi ⊢
  rw [List.length_map, List.length_range] at hi
  have hget : ((List.range ((arr.length + c - 1) / c)).map
      (fun j => (arr.drop (j * c)).take c)).getD i [] = (arr.drop (i * c)).take c := by
    rw [List.getD_eq_getElem?_getD, List.getElem?_map, List.getElem?_range (by omega)]
    rfl
  rw [hget, List.length_take, List.length_drop]
  have hcount : i + 2 ≤ (arr.length + c - 1) / c := by omega
  have h3 := (Nat.le_div_iff_mul_le hc).mp hcount
  rw [Nat.add_mul] at h3
  omega

/-- C2.  chunkArray with batch size 50 partitions any id sequence:
concatenating the batches in order yields the original sequence (so nothing
is lost, duplicated, or reordered), every batch except possibly the last
has exactly 50 elements, and the batch count is the ceiling of N / 50. -/
theorem chunkArray_partition_50 {α : Type} (arr : List α) :
    ((chunkArray arr 50).flatten = arr) ∧
    (∀ i, i + 1 < (chunkArray arr 50).length →
        ((chunkArray arr 50).getD i []).length = 50) ∧
    ((chunkArray arr 50).length = (arr.length + 49) / 50) := by
  refine ⟨?_, ?_, ?_⟩
  · exact chunkArray_flatten arr 50 (by omega)
  · intro i hi
    exact chunkArray_full_batches arr 50 (by omega) i hi
  · simpa using chunkArray_length_of_pos arr 50 (by omega)

/-- Concrete run of the C2 theorem on a list of 120 ids: it splits into
batches of 50, 50 and 20, three batches in all, and joins back. -/
theorem chunkArray_partition_50_witness :
    ((chunkArray (List.range 120) 50).flatten = List.range 120) ∧
    (((chunkArray (List.range 120) 50).getD 0 []).length = 50) ∧
    ((chunkArray (List.range 120) 50).length = 3) := by
  have h := chunkArray_partition_50 (List.range 120)
  refine ⟨h.1, h.2.1 0 ?_, ?_⟩
  · rw [h.2.2]
    decide
  · rw [h.2.2]
    decide

/-- C9.  For a non-positive chunk size, chunkArray degenerates to the single
batch holding the whole array (the source returns [arr] before entering the
loop), so nothing is dropped and no divergence is possible. -/
theorem chunkArray_nonpos {α : Type} (arr : List α) (chunkSize : Int)
    (h : chunkSize ≤ 0) : chunkArray arr chunkSize = [arr] := by
  simp [chunkArray, h]

/-- Concrete run of the C9 theorem: chunk size 0 and chunk size -3 both
return the whole three-element array as one batch. -/
theorem chunkArray_nonpos_witness :
    chunkArray [10, 20, 30] 0 = [[10, 20, 30]] ∧
    chunkArray [10, 20, 30] (-3) = [[10, 20, 30]] :=
  ⟨chunkArray_nonpos [10, 20, 30] 0 (by decide),
   chunkArray_nonpos [10, 20, 30] (-3) (by decide)⟩

/-!
Data model (src/index.ts lines 14-38).  Every field that a JSON response may
omit is an Option; the interface fields feeds, feeds_groups, groups and
saved_item_ids are never read by any operation modelled here and are elided.
-/

/-- Embedding of the FreshRSSItem interface. -/
structure FreshRSSItem where
  id : String
  feed_id : Int
  title : String
  author : Option String
  html : String
  url : String
  is_saved : Int
  is_read : Int
  created_on_time : Int
  deriving DecidableEq, Repr

/-- Embedding of the FreshRSSResponse interface (payload fields restricted to
the ones the modelled operations read). -/
structure FreshRSSResponse where
  api_version : Option Nat
  auth : Option Nat
  last_refreshed_on_time : Option Int
  total_items : Option Nat
  items : Option (List FreshRSSItem)
  unread_item_ids : Option String
  deriving DecidableEq, Repr

/-- Error codes of the MCP SDK used by the source. -/
inductive McpErrorCode where
  | internalError
  | methodNotFound
  deriving DecidableEq, Repr

/-- A thrown JavaScript exception: either an McpError with its code and
message, or a plain Error (the source throws new Error for an invalid API
response and rethrows non-axios failures unchanged). -/
inductive ThrownError where
  | mcp (code : McpErrorCode) (message : String)
  | plain (message : String)
  deriving DecidableEq, Repr

/-- Error code under which a thrown error reaches the tool caller: the
CallToolRequestSchema handler rethrows an McpError unchanged and wraps any
other exception as an internal error (src/index.ts lines 690-695). -/
def ThrownError.surfacedCode : ThrownError → McpErrorCode
  | .mcp c _ => c
  | .plain _ => .internalError

/-- One logical Fever API call, identified by the extra form fields the
client sends (src/index.ts: the data argument of the request method). -/
inductive FeverCall where
  | unreadItemIds
  | itemsWithIds (with_ids : String)
  | itemsForFeed (feed_ids : String)
  deriving DecidableEq, Repr

/-- Outcome of the axios POST inside the request method: either a resolved
2xx response with a parsed JSON body, or a raised axios error (non-2xx
status or transport failure) carrying the message the catch block selects
(error.response.data.error when present, else error.message). -/
inductive TransportResult where
  | ok (body : FreshRSSResponse)
  | axiosErr (message : String)
  deriving DecidableEq, Repr

/-- Truthiness of the api_version marker: the guard
`if (!response.data?.api_version)` fails the response when the field is
absent or zero. -/
def apiVersionTruthy : Option Nat → Bool
  | some n => n != 0
  | none => false

/-- Embedding of FreshRSSClient.request (src/index.ts lines 64-96) over a
network oracle giving the transport outcome of each Fever call.  An axios
error becomes a thrown McpError; a resolved response without a truthy
api_version becomes a thrown plain Error with message Invalid API response. -/
def request (net : FeverCall → TransportResult) (c : FeverCall) :
    Except ThrownError FreshRSSResponse :=
  match net c with
  | .axiosErr msg => .error (.mcp .internalError ("FreshRSS API error: " ++ msg))
  | .ok body =>
      if apiVersionTruthy body.api_version then .ok body
      else .error (.plain "Invalid API response")

/-- Id-list preparation inside getUnreadItems (src/index.ts lines 123-126):
String(unreadIdsResp.unread_item_ids or empty).split(',').map(trim).filter(Boolean). -/
def splitUnreadIds (unread_item_ids : Option String) : List String :=
  (((jsSplit ',' (unread_item_ids.getD "")).map jsTrim).filter (fun s => s != ""))

/-- The sequential batch loop of getUnreadItems (src/index.ts lines 128-137):
for each batch request the items; a thrown error aborts the loop; a response
whose items field is missing (or not an array) contributes nothing. -/
def fetchBatches (net : FeverCall → TransportResult) :
    List (List String) → List FreshRSSItem → Except ThrownError (List FreshRSSItem)
  | [], acc => .ok acc
  | batch :: rest, acc =>
      match request net (.itemsWithIds (commaJoin batch)) with
      | .error e => .error e
      | .ok itemsResp =>
          match itemsResp.items with
          | some its => fetchBatches net rest (acc ++ its)
          | none => fetchBatches net rest acc

/-- Embedding of FreshRSSClient.getUnreadItems (src/index.ts lines 109-149). -/
def getUnreadItems (net : FeverCall → TransportResult) :
    Except ThrownError FreshRSSResponse :=
  match request net .unreadItemIds with
  | .error e => .error e
  | .ok unreadIdsResp =>
      let unreadIds := splitUnreadIds unreadIdsResp.unread_item_ids
      match fetchBatches net (chunkArray unreadIds 50) [] with
      | .error e => .error e
      | .ok allUnreadItems =>
          let items := allUnreadItems.filter (fun item => item.is_read == 0)
          .ok { api_version := unreadIdsResp.api_version,
                auth := unreadIdsResp.auth,
                last_refreshed_on_time := unreadIdsResp.last_refreshed_on_time,
                total_items := some items.length,
                items := some items,
                unread_item_ids := none }

/-- Items accumulated from a list of batches when the response to batch b is
respOf b: each batch contributes its items array, or nothing when that field
is absent. -/
def batchFetchedItems (respOf : List String → FreshRSSResponse)
    (bs : List (List String)) : List FreshRSSItem :=
  (bs.map (fun b => ((respOf b).items).getD [])).flatten

/-- When every batch request resolves with a truthy api_version, the batch
loop accumulates exactly the concatenation of the item arrays. -/
theorem fetchBatches_ok (net : FeverCall → TransportResult)
    (respOf : List String → FreshRSSResponse) (bs : List (List String)) :
    ∀ acc : List FreshRSSItem,
      (∀ b ∈ bs, net (.itemsWithIds (commaJoin b)) = .ok (respOf b) ∧
          apiVersionTruthy (respOf b).api_version = true) →
      fetchBatches net bs acc = .ok (acc ++ batchFetchedItems respOf bs) := by
  induction bs with
  | nil =>
      intro acc _
      simp [fetchBatches, batchFetchedItems]
  | cons b rest ih =>
      intro acc hb
      obtain ⟨hnet, hver⟩ := hb b (by simp)
      have hrest : ∀ x ∈ rest, net (.itemsWithIds (commaJoin x)) = .ok (respOf x) ∧
          apiVersionTruthy (respOf x).api_version = true := by
        intro x hx
        exact hb x (by simp [hx])
      simp only [fetchBatches, request, hnet, hver, if_pos]
      cases hits : (respOf b).items with
      | some its =>
          show fetchBatches net rest (acc ++ its) =
            .ok (acc ++ batchFetchedItems respOf (b :: rest))
          rw [ih (acc ++ its) hrest]
          simp [batchFetchedItems, hits]
      | none =>
          show fetchBatches net rest acc =
            .ok (acc ++ batchFetchedItems respOf (b :: rest))
          rw [ih acc hrest]
          simp [batchFetchedItems, hits]

/-- Shared success characterisation of getUnreadItems: with a successful
id-list call and successful batch calls, the result is the envelope built
from the filtered accumulated items. -/
theorem getUnreadItems_ok_aux (net : FeverCall → TransportResult)
    (r0 : FreshRSSResponse) (respOf : List String → FreshRSSResponse)
    (h0 : net .unreadItemIds = .ok r0)
    (hv0 : apiVersionTruthy r0.api_version = true)
    (hb : ∀ b ∈ chunkArray (splitUnreadIds r0.unread_item_ids) 50,
        net (.itemsWithIds (commaJoin b)) = .ok (respOf b) ∧
          apiVersionTruthy (respOf b).api_version = true) :
    getUnreadItems net = .ok
      { api_version := r0.api_version, auth := r0.auth,
        last_refreshed_on_time := r0.last_refreshed_on_time,
        total_items := some
          ((batchFetchedItems respOf
              (chunkArray (splitUnreadIds r0.unread_item_ids) 50)).filter
            (fun item => item.is_read == 0)).length,
        items := some
          ((batchFetchedItems respOf
              (chunkArray (splitUnreadIds r0.unread_item_ids) 50)).filter
            (fun item => item.is_read == 0)),
        unread_item_ids := none } := by
  simp only [getUnreadItems, request, h0, hv0, if_pos]
  rw [fetchBatches_ok net respOf _ [] hb]
  simp

/-- C1.  When every request of a getUnreadItems run succeeds, the returned
envelope holds exactly the fetched items whose is_read field is 0,
total_items is the length of that filtered list, and api_version, auth and
last_refreshed_on_time are copied from the initial unread-id-list response. -/
theorem getUnreadItems_spec (net : FeverCall → TransportResult)
    (r0 : FreshRSSResponse) (respOf : List String → FreshRSSResponse)
    (h0 : net .unreadItemIds = .ok r0)
    (hv0 : apiVersionTruthy r0.api_version = true)
    (hb : ∀ b ∈ chunkArray (splitUnreadIds r0.unread_item_ids) 50,
        net (.itemsWithIds (commaJoin b)) = .ok (respOf b) ∧
          apiVersionTruthy (respOf b).api_version = true) :
    getUnreadItems net = .ok
      { api_version := r0.api_version, auth := r0.auth,
        last_refreshed_on_time := r0.last_refreshed_on_time,
        total_items := some
          ((batchFetchedItems respOf
              (chunkArray (splitUnreadIds r0.unread_item_ids) 50)).filter
            (fun item => item.is_read == 0)).length,
        items := some
          ((batchFetchedItems respOf
              (chunkArray (splitUnreadIds r0.unread_item_ids) 50)).filter
            (fun item => item.is_read == 0)),
        unread_item_ids := none } :=
  getUnreadItems_ok_aux net r0 respOf h0 hv0 hb

/-- Sample item used in concrete runs. -/
def sampleItem (i : String) (read : Int) : FreshRSSItem :=
  { id := i, feed_id := 7, title := i, author := none, html := "", url := "",
    is_saved := 0, is_read := read, created_on_time := 0 }

/-- Concrete unread-id-list response advertising ids 1,2,3. -/
def c1IdsResp : FreshRSSResponse :=
  { api_version := some 3, auth := some 1, last_refreshed_on_time := some 100,
    total_items := none, items := none, unread_item_ids := some "1,2,3" }

/-- Concrete batch response covering ids 1,2,3 with is_read values 0,1,0. -/
def c1ItemsResp : FreshRSSResponse :=
  { api_version := some 3, auth := some 1, last_refreshed_on_time := some 100,
    total_items := some 3,
    items := some [sampleItem "1" 0, sampleItem "2" 1, sampleItem "3" 0],
    unread_item_ids := none }

/-- Network oracle for the C1 example run. -/
def c1Net : FeverCall → TransportResult
  | .unreadItemIds => .ok c1IdsResp
  | .itemsWithIds _ => .ok c1ItemsResp
  | .itemsForFeed _ => .axiosErr "unused"

/-- Concrete run of the C1 theorem: with unread-id response 1,2,3 and item
responses with is_read values 0,1,0, the result keeps exactly the items with
ids 1 and 3 and reports total_items 2. -/
theorem getUnreadItems_spec_witness :
    getUnreadItems c1Net = .ok
      { api_version := some 3, auth := some 1, last_refreshed_on_time := some 100,
        total_items := some 2,
        items := some [sampleItem "1" 0, sampleItem "3" 0],
        unread_item_ids := none } := by
  have h := getUnreadItems_spec c1Net c1IdsResp (fun _ => c1ItemsResp) rfl rfl
    (fun b _ => ⟨rfl, rfl⟩)
  exact h.trans rfl

/-- Every error produced by the request method surfaces to the tool caller
with the internal-error code: axios failures are wrapped as McpError
InternalError and the invalid-api-response Error is wrapped at the handler
boundary. -/
theorem request_error_surfaces_internal (net : FeverCall → TransportResult)
    (c : FeverCall) (e : ThrownError) (h : request net c = .error e) :
    e.surfacedCode = .internalError := by
  unfold request at h
  cases hnet : net c with
  | axiosErr msg =>
      rw [hnet] at h
      cases h
      rfl
  | ok body =>
      rw [hnet] at h
      by_cases hv : apiVersionTruthy body.api_version = true
      · simp [hv] at h
      · simp [hv] at h
        cases h
        rfl

/-- If some batch in the list has a failing request, the batch loop returns
the error of the first failing request it reaches, never an item list. -/
theorem fetchBatches_error (net : FeverCall → TransportResult)
    (bs : List (List String)) :
    ∀ acc : List FreshRSSItem,
      (∃ b ∈ bs, ∃ e, request net (.itemsWithIds (commaJoin b)) = .error e) →
      ∃ e, fetchBatches net bs acc = .error e ∧
        ∃ b ∈ bs, request net (.itemsWithIds (commaJoin b)) = .error e := by
  induction bs with
  | nil =>
      intro acc h
      obtain ⟨b, hb, _⟩ := h
      cases hb
  | cons b rest ih =>
      intro acc h
      cases hreq : request net (.itemsWithIds (commaJoin b)) with
      | error e =>
          refine ⟨e, ?_, b, by simp, hreq⟩
          simp only [fetchBatches, hreq]
      | ok itemsResp =>
          have hrest : ∃ x ∈ rest, ∃ e,
              request net (.itemsWithIds (commaJoin x)) = .error e := by
            obtain ⟨x, hx, e, hxe⟩ := h
            rcases List.mem_cons.mp hx with hxb | hxr
            · subst hxb
              rw [hreq] at hxe
              cases hxe
            · exact ⟨x, hxr, e, hxe⟩
          cases hits : itemsResp.items with
          | some its =>
              obtain ⟨e, he, x, hx, hxe⟩ := ih (acc ++ its) hrest
              refine ⟨e, ?_, x, by simp [hx], hxe⟩
              simp only [fetchBatches, hreq, hits]
              exact he
          | none =>
              obtain ⟨e, he, x, hx, hxe⟩ := ih acc hrest
              refine ⟨e, ?_, x, by simp [hx], hxe⟩
              simp only [fetchBatches, hreq, hits]
              exact he

/-- C7.  If any batch request of a getUnreadItems run fails (axios error or
a response without its api_version marker), the whole operation returns an
error that surfaces with the internal-error code, and no envelope with the
items of earlier successful batches is returned. -/
theorem getUnreadItems_aborts_on_batch_failure (net : FeverCall → TransportResult)
    (r0 : FreshRSSResponse)
    (h0 : net .unreadItemIds = .ok r0)
    (hv0 : apiVersionTruthy r0.api_version = true)
    (hfail : ∃ b ∈ chunkArray (splitUnreadIds r0.unread_item_ids) 50,
        ∃ e, request net (.itemsWithIds (commaJoin b)) = .error e) :
    ∃ e, getUnreadItems net = .error e ∧
      ThrownError.surfacedCode e = .internalError := by
  obtain ⟨e, he, b, _, hbe⟩ :=
    fetchBatches_error net (chunkArray (splitUnreadIds r0.unread_item_ids) 50) [] hfail
  refine ⟨e, ?_, request_error_surfaces_internal net _ e hbe⟩
  simp only [getUnreadItems, request, h0, hv0, if_pos]
  rw [he]

/-- Network oracle for the C7 example run: the id list resolves but the
batch request fails with an upstream error message. -/
def c7Net : FeverCall → TransportResult
  | .unreadItemIds => .ok c1IdsResp
  | .itemsWithIds _ => .axiosErr "boom"
  | .itemsForFeed _ => .axiosErr "unused"

/-- Concrete run of the C7 theorem: the failing batch aborts the operation
with the wrapped axios message and no partial envelope. -/
theorem getUnreadItems_aborts_on_batch_failure_witness :
    ∃ e, getUnreadItems c7Net = .error e ∧
      ThrownError.surfacedCode e = .internalError :=
  getUnreadItems_aborts_on_batch_failure c7Net c1IdsResp rfl rfl
    ⟨["1", "2", "3"], by decide, .mcp .internalError "FreshRSS API error: boom", rfl⟩

/-- C10.  A batch response that resolves with a truthy api_version but no
items array is skipped: the run still succeeds, that batch contributes no
items, and the envelope holds the filtered accumulation in which the batch
contributes the empty list. -/
theorem getUnreadItems_skips_itemless_batch (net : FeverCall → TransportResult)
    (r0 : FreshRSSResponse) (respOf : List String → FreshRSSResponse)
    (b0 : List String)
    (h0 : net .unreadItemIds = .ok r0)
    (hv0 : apiVersionTruthy r0.api_version = true)
    (hb : ∀ b ∈ chunkArray (splitUnreadIds r0.unread_item_ids) 50,
        net (.itemsWithIds (commaJoin b)) = .ok (respOf b) ∧
          apiVersionTruthy (respOf b).api_version = true)
    (hmem : b0 ∈ chunkArray (splitUnreadIds r0.unread_item_ids) 50)
    (hnone : (respOf b0).items = none) :
    ∃ env, getUnreadItems net = .ok env ∧
      env.items = some
        ((batchFetchedItems respOf
            (chunkArray (splitUnreadIds r0.unread_item_ids) 50)).filter
          (fun item => item.is_read == 0)) ∧
      ((respOf b0).items).getD [] = [] := by
  refine ⟨_, getUnreadItems_ok_aux net r0 respOf h0 hv0 hb, rfl, ?_⟩
  simp [hnone]

/-- Batch response that resolves with a valid api_version but carries no
items field at all. -/
def c10ItemsResp : FreshRSSResponse :=
  { api_version := some 3, auth := some 1, last_refreshed_on_time := some 100,
    total_items := none, items := none, unread_item_ids := none }

/-- Network oracle for the C10 example run. -/
def c10Net : FeverCall → TransportResult
  | .unreadItemIds => .ok c1IdsResp
  | .itemsWithIds _ => .ok c10ItemsResp
  | .itemsForFeed _ => .axiosErr "unused"

/-- Concrete run of the C10 theorem: the itemless batch is skipped, the run
completes, and the ids of that batch are absent from the (empty) result. -/
theorem getUnreadItems_skips_itemless_batch_witness :
    ∃ env, getUnreadItems c10Net = .ok env ∧
      env.items = some
        ((batchFetchedItems (fun _ => c10ItemsResp)
            (chunkArray (splitUnreadIds c1IdsResp.unread_item_ids) 50)).filter
          (fun item => item.is_read == 0)) ∧
      ((c10ItemsResp.items).getD []) = [] :=
  getUnreadItems_skips_itemless_batch c10Net c1IdsResp (fun _ => c10ItemsResp)
    ["1", "2", "3"] rfl rfl (fun b _ => ⟨rfl, rfl⟩) (by decide) rfl

/-!
Google Reader session flow (src/index.ts lines 199-243).  The two axios
calls are oracles: the login result is an Except whose error side carries
the message the catch block renders, and the token result is keyed by the
auth token because the real request sends it in the Authorization header.
-/

/-- Session returned by getGReaderAuthAndToken. -/
structure GReaderSession where
  auth : String
  editToken : String
  base : String
  deriving DecidableEq, Repr

/-- Models String.prototype.replace with the regex of one trailing slash
(used on apiUrl at line 203). -/
def stripTrailingSlash (s : String) : String :=
  if s.data.getLast? == some '/' then String.mk s.data.dropLast else s

/-- Models String.prototype.replace with the regex backslash-s global flag:
every JS whitespace character is removed (the preceding optional-chain trim
removes only characters this filter removes anyway). -/
def stripWs (s : String) : String :=
  String.mk (s.data.filter (fun c => !(isJsWs c)))

/-- Attempted regex match of Auth=([^\s\n]+) at the head of the character
list: the literal Auth= must start here and be followed by at least one
non-whitespace character; the capture is the maximal non-whitespace run. -/
def authTokenAt (cs : List Char) : Option (List Char) :=
  match cs with
  | 'A' :: 'u' :: 't' :: 'h' :: '=' :: rest =>
      let tok := rest.takeWhile (fun c => !(isJsWs c))
      if tok.isEmpty then none else some tok
  | _ => none

/-- Leftmost-match search of the regex Auth=([^\s\n]+): try each position
from the left, exactly as the JavaScript engine does for this pattern. -/
def findAuthToken : List Char → Option (List Char)
  | [] => none
  | c :: rest =>
      match authTokenAt (c :: rest) with
      | some tok => some tok
      | none => findAuthToken rest

/-- The capture group of String(loginRes.data).match(/Auth=([^\s\n]+)/),
or none when the regex does not match (src/index.ts line 220). -/
def authExtract (s : String) : Option String :=
  (findAuthToken s.data).map String.mk

/-- Embedding of FreshRSSClient.getGReaderAuthAndToken
(src/index.ts lines 202-243). -/
def getGReaderAuthAndToken (apiUrl : String)
    (login : Except String String)
    (token : String → Except String String) :
    Except ThrownError GReaderSession :=
  let base := stripTrailingSlash apiUrl ++ "/api/greader.php"
  match login with
  | .error msg =>
      .error (.mcp .internalError ("FreshRSS Google Reader login failed: " ++ msg))
  | .ok body =>
      match authExtract body with
      | none =>
          .error (.mcp .internalError
            "FreshRSS Google Reader: no Auth token in login response")
      | some tok =>
          let auth := jsTrim tok
          match token auth with
          | .error msg =>
              .error (.mcp .internalError
                ("FreshRSS Google Reader token failed: " ++ msg))
          | .ok tbody =>
              let editToken := stripWs tbody
              if editToken == "" then
                .error (.mcp .internalError
                  "FreshRSS Google Reader: no edit token returned")
              else
                .ok { auth := auth, editToken := editToken, base := base }

/-- Lines of a login body, split at newline characters. -/
def bodyLines (s : String) : List String := jsSplit '\n' s

/-- Does a line consist of the Auth= marker followed by a value, i.e. does
it start with the literal Auth= ? -/
def isAuthMarkerLine (l : String) : Bool :=
  ("Auth=".data).isPrefixOf l.data

/-- C5 counterexample.  The claim reads the marker as Auth=token on its own
line, but the source regex matches anywhere: the body
XAuth=zzz(newline)Auth=abc123(newline) contains the own-line marker
Auth=abc123, yet the flow extracts zzz (found inside XAuth=zzz) and returns
a session with auth zzz instead of abc123; and the body XAuth=qqq(newline)
has no own-line marker at all, yet the flow succeeds instead of raising. -/
theorem gReaderAuth_own_line_counterexample :
    ((bodyLines "XAuth=zzz\nAuth=abc123\n").contains "Auth=abc123" = true ∧
      getGReaderAuthAndToken "http://h" (.ok "XAuth=zzz\nAuth=abc123\n")
          (fun _ => .ok "tok") =
        .ok { auth := "zzz", editToken := "tok",
              base := "http://h/api/greader.php" }) ∧
    (((bodyLines "XAuth=qqq\n").any isAuthMarkerLine) = false ∧
      getGReaderAuthAndToken "http://h" (.ok "XAuth=qqq\n")
          (fun _ => .ok "tok") =
        .ok { auth := "qqq", editToken := "tok",
              base := "http://h/api/greader.php" }) := by
  refine ⟨⟨?_, rfl⟩, ⟨?_, rfl⟩⟩ <;> decide

/-- C5 (amended).  The login parse takes the first occurrence of the
substring Auth= that is followed by at least one non-whitespace character,
wherever it occurs in the body, and extracts that non-whitespace run; when
the body has no such occurrence the flow raises an internal-error McpError
instead of returning a session. -/
theorem gReaderAuth_parse_spec (apiUrl body : String)
    (token : String → Except String String) :
    (authExtract body = none →
      getGReaderAuthAndToken apiUrl (.ok body) token =
        .error (.mcp .internalError
          "FreshRSS Google Reader: no Auth token in login response")) ∧
    (∀ a t, authExtract body = some a → token (jsTrim a) = .ok t →
      stripWs t ≠ "" →
      getGReaderAuthAndToken apiUrl (.ok body) token =
        .ok { auth := jsTrim a, editToken := stripWs t,
              base := stripTrailingSlash apiUrl ++ "/api/greader.php" }) := by
  constructor
  · intro hnone
    simp only [getGReaderAuthAndToken, hnone]
  · intro a t ha ht hne
    simp only [getGReaderAuthAndToken, ha, ht]
    have : (stripWs t == "") = false := by
      simpa using hne
    simp [this]

/-- Concrete run of the amended C5 theorem: the body
SID=sid(newline)Auth=abc123(newline), whose first qualifying Auth=
occurrence is the own-line marker, yields auth token abc123; and a body
without any Auth= occurrence raises the internal error. -/
theorem gReaderAuth_parse_spec_witness :
    getGReaderAuthAndToken "http://h" (.ok "SID=sid\nAuth=abc123\n")
        (fun _ => .ok " tok ") =
      .ok { auth := "abc123", editToken := "tok",
            base := "http://h/api/greader.php" } ∧
    getGReaderAuthAndToken "http://h" (.ok "SID=sid\n")
        (fun _ => .ok " tok ") =
      .error (.mcp .internalError
        "FreshRSS Google Reader: no Auth token in login response") := by
  constructor
  · have h := (gReaderAuth_parse_spec "http://h" "SID=sid\nAuth=abc123\n"
      (fun _ => .ok " tok ")).2 "abc123" " tok " (by decide) rfl (by decide)
    exact h.trans rfl
  · exact (gReaderAuth_parse_spec "http://h" "SID=sid\n"
      (fun _ => .ok " tok ")).1 (by decide)

/-- C8.  After a successful login, the edit-token step returns the token
response body with all surrounding and embedded whitespace removed, paired
with the auth token of the same login; when nothing remains after that
stripping, it raises an internal-error McpError instead. -/
theorem gReaderEditToken_spec (apiUrl body : String) (a t : String)
    (token : String → Except String String)
    (ha : authExtract body = some a)
    (ht : token (jsTrim a) = .ok t) :
    (stripWs t ≠ "" →
      getGReaderAuthAndToken apiUrl (.ok body) token =
        .ok { auth := jsTrim a, editToken := stripWs t,
              base := stripTrailingSlash apiUrl ++ "/api/greader.php" }) ∧
    (stripWs t = "" →
      getGReaderAuthAndToken apiUrl (.ok body) token =
        .error (.mcp .internalError
          "FreshRSS Google Reader: no edit token returned")) := by
  constructor
  · intro hne
    simp only [getGReaderAuthAndToken, ha, ht]
    have : (stripWs t == "") = false := by
      simpa using hne
    simp [this]
  · intro heq
    simp only [getGReaderAuthAndToken, ha, ht]
    have : (stripWs t == "") = true := by
      simpa using heq
    simp [this]

/-- Concrete run of the C8 theorem: a token body of spaced characters is
stripped to t0k, and a token body of pure whitespace raises the internal
error. -/
theorem gReaderEditToken_spec_witness :
    getGReaderAuthAndToken "http://h/" (.ok "Auth=a1\n")
        (fun _ => .ok " t 0\nk ") =
      .ok { auth := "a1", editToken := "t0k",
            base := "http://h/api/greader.php" } ∧
    getGReaderAuthAndToken "http://h/" (.ok "Auth=a1\n")
        (fun _ => .ok " \n ") =
      .error (.mcp .internalError
        "FreshRSS Google Reader: no edit token returned") := by
  constructor
  · have h := (gReaderEditToken_spec "http://h/" "Auth=a1\n" "a1" " t 0\nk "
      (fun _ => .ok " t 0\nk ") (by decide) rfl).1 (by decide)
    exact h.trans rfl
  · exact (gReaderEditToken_spec "http://h/" "Auth=a1\n" "a1" " \n "
      (fun _ => .ok " \n ") (by decide) rfl).2 (by decide)

/-!
Subscription editing (src/index.ts lines 245-339).  The subscription-edit
POST resolves for every status (validateStatus always true), so its oracle
is a total function to a status/body pair.  A JSON body is modelled by the
record of the fields the source reads; JSON.stringify of such a body, used
only as a last-resort error message, renders the present fields in
declaration order (field order of the original JSON is not observable in
this embedding, and no claim depends on the rendering).
-/

/-- Fields the source reads from a JSON subscription-edit body. -/
structure SubJson where
  streamId : Option String
  feedId : Option String
  streamName : Option String
  title : Option String
  numResults : Option Int
  error : Option String
  message : Option String
  deriving DecidableEq, Repr

/-- Body of a subscription-edit response: plain text or parsed JSON. -/
inductive SubBody where
  | str (s : String)
  | json (j : SubJson)
  deriving DecidableEq, Repr

/-- A resolved subscription-edit HTTP response. -/
structure SubscribeHttp where
  status : Nat
  body : SubBody
  deriving DecidableEq, Repr

/-- Result record of subscribeFeed; an absent field is undefined. -/
structure SubscribeResult where
  feedId : Option String
  title : Option String
  numResults : Option Int
  error : Option String
  deriving DecidableEq, Repr

/-- The form fields of one subscription-edit POST (ac, s, optional a, T). -/
structure SubEditCall where
  ac : String
  s : String
  a : Option String
  T : String
  deriving DecidableEq, Repr

/-- JavaScript or-operator on optional strings: an absent or empty left
operand falls through to the right one. -/
def jsOrString : Option String → Option String → Option String
  | some s, b => if s == "" then b else some s
  | none, b => b

/-- JavaScript nullish coalescing on optional strings: only an absent left
operand falls through. -/
def jsNullish : Option String → Option String → Option String
  | some s, _ => some s
  | none, b => b

/-- Rendering of one JSON string field. -/
def jsonField (name : String) (v : String) : String :=
  "\"" ++ name ++ "\":\"" ++ v ++ "\""

/-- JSON.stringify of a SubJson body (present fields in declaration order;
string escaping elided, as no modelled string contains characters needing
it). -/
def jsonStringify (j : SubJson) : String :=
  "\x7b" ++ commaJoin (List.filterMap id
    [j.streamId.map (jsonField "streamId"),
     j.feedId.map (jsonField "feedId"),
     j.streamName.map (jsonField "streamName"),
     j.title.map (jsonField "title"),
     j.numResults.map (fun n => "\"numResults\":" ++ toString n),
     j.error.map (jsonField "error"),
     j.message.map (jsonField "message")]) ++ "\x7d"

/-- The upstream message selected for a non-200 subscription-edit status:
the body itself when it is a string, otherwise body.error falling back to
body.message and then to JSON.stringify(body) (src/index.ts line 275). -/
def subscribeErrMsg : SubBody → String
  | .str s => s
  | .json j => (jsOrString j.error j.message).getD (jsonStringify j)

/-- Normalisation of a resolved subscription-edit response
(src/index.ts lines 273-287). -/
def processSubscribeResponse (r : SubscribeHttp) : SubscribeResult :=
  if r.status != 200 then
    { feedId := none, title := none, numResults := none,
      error := some (subscribeErrMsg r.body) }
  else
    match r.body with
    | .str s =>
        if jsTrim s == "OK" then
          { feedId := none, title := none, numResults := some 1, error := none }
        else
          { feedId := none, title := none, numResults := none, error := none }
    | .json j =>
        { feedId := jsNullish j.streamId j.feedId,
          title := jsNullish j.streamName j.title,
          numResults := j.numResults,
          error := j.error }

/-- The label parameter attached to a subscribe call: present exactly when
categoryName is neither null nor the empty string (src/index.ts line 257). -/
def subscribeLabel : Option String → Option String
  | none => none
  | some c => if c == "" then none else some ("user/-/label/" ++ c)

/-- Embedding of FreshRSSClient.subscribeFeed (src/index.ts lines 249-288):
establish a session, POST the subscribe action, normalise the response.
No code path after a successful session throws. -/
def subscribeFeed (sess : Except ThrownError GReaderSession)
    (http : SubEditCall → SubscribeHttp)
    (feedUrl : String) (categoryName : Option String) :
    Except ThrownError SubscribeResult :=
  match sess with
  | .error e => .error e
  | .ok gs =>
      .ok (processSubscribeResponse (http
        { ac := "subscribe", s := "feed/" ++ feedUrl,
          a := subscribeLabel categoryName, T := gs.editToken }))

/-- C3.  subscribeFeed reconciles the success encodings: a 200 plain-text
OK body yields a result without error (numResults 1), a 200 JSON body with
streamId x and numResults 1 yields feedId x and numResults 1, and any
non-200 status yields a returned error value carrying the upstream message
while the operation itself still returns normally (never throws) once the
session is established. -/
theorem subscribeFeed_reconciliation (gs : GReaderSession)
    (http : SubEditCall → SubscribeHttp)
    (feedUrl : String) (categoryName : Option String)
    (st : Nat) (b : SubBody) :
    (processSubscribeResponse { status := 200, body := .str "OK" } =
      { feedId := none, title := none, numResults := some 1, error := none }) ∧
    (processSubscribeResponse
        { status := 200,
          body := .json { streamId := some "x", feedId := none,
                          streamName := none, title := none,
                          numResults := some 1, error := none,
                          message := none } } =
      { feedId := some "x", title := none, numResults := some 1,
        error := none }) ∧
    (st ≠ 200 →
      processSubscribeResponse { status := st, body := b } =
        { feedId := none, title := none, numResults := none,
          error := some (subscribeErrMsg b) }) ∧
    (∃ r, subscribeFeed (.ok gs) http feedUrl categoryName = .ok r) := by
  refine ⟨by decide, by decide, ?_, ⟨_, rfl⟩⟩
  intro hst
  have : (st != 200) = true := by
    simpa using hst
  simp [processSubscribeResponse, this]

/-- Concrete run of the C3 theorem: a 404 response whose JSON body carries
the upstream error duplicate is returned as an error value (the subscribe
call still resolves rather than throwing). -/
theorem subscribeFeed_reconciliation_witness :
    processSubscribeResponse
        { status := 404,
          body := .json { streamId := none, feedId := none, streamName := none,
                          title := none, numResults := none,
                          error := some "duplicate", message := none } } =
      { feedId := none, title := none, numResults := none,
        error := some "duplicate" } ∧
    subscribeFeed (.ok { auth := "a", editToken := "t", base := "b" })
        (fun _ => { status := 404,
                    body := .json { streamId := none, feedId := none,
                                    streamName := none, title := none,
                                    numResults := none,
                                    error := some "duplicate",
                                    message := none } })
        "https://example.com/feed.xml" none =
      .ok { feedId := none, title := none, numResults := none,
            error := some "duplicate" } := by
  have h := (subscribeFeed_reconciliation
    { auth := "a", editToken := "t", base := "b" }
    (fun _ => { status := 404,
                body := .json { streamId := none, feedId := none,
                                streamName := none, title := none,
                                numResults := none,
                                error := some "duplicate",
                                message := none } })
    "https://example.com/feed.xml" none 404
    (.json { streamId := none, feedId := none, streamName := none,
             title := none, numResults := none,
             error := some "duplicate", message := none })).2.2.1 (by decide)
  exact ⟨h.trans (by decide), by rw [subscribeFeed, h]; rfl⟩

/-!
createCategory (src/index.ts lines 294-339).  Its tag-list GET and its
subscribe POST are oracles; the second component of a successful result is
the list of subscription-edit calls the run issued, which makes the
no-subscribe-on-existing-category behaviour a provable statement.
-/

/-- One entry of the tag list (the source reads only the id field). -/
structure GReaderTag where
  id : Option String
  deriving DecidableEq, Repr

/-- Result record of createCategory. -/
structure CreateCategoryResult where
  created : Bool
  message : String
  deriving DecidableEq, Repr

/-- The fixed placeholder feed subscribed to materialise a new category. -/
def placeholderFeed : String := "https://github.com/FreshRSS/FreshRSS/releases.atom"

/-- Embedding of FreshRSSClient.createCategory (src/index.ts lines
294-339).  tagList is the resolved tag-list body (its optional tags array,
i.e. listRes.data.tags, absent mapped to the empty list by the source) or
the axios failure message; subEdit is the subscribe POST oracle. -/
def createCategory (sess : Except ThrownError GReaderSession)
    (tagList : Except String (Option (List GReaderTag)))
    (subEdit : SubEditCall → Except String Unit)
    (categoryName : String) :
    Except ThrownError (CreateCategoryResult × List SubEditCall) :=
  match sess with
  | .error e => .error e
  | .ok gs =>
      match tagList with
      | .error msg =>
          .error (.mcp .internalError ("FreshRSS tag list failed: " ++ msg))
      | .ok data =>
          let tags := data.getD []
          let labelId := "user/-/label/" ++ categoryName
          if tags.any (fun t => t.id == some labelId) then
            .ok ({ created := false,
                   message := "Category \"" ++ categoryName ++ "\" already exists." },
                 [])
          else
            let call : SubEditCall :=
              { ac := "subscribe", s := "feed/" ++ placeholderFeed,
                a := some labelId, T := gs.editToken }
            match subEdit call with
            | .error msg =>
                .error (.mcp .internalError
                  ("FreshRSS create category failed: " ++ msg))
            | .ok _ =>
                .ok ({ created := true,
                       message := "Category \"" ++ categoryName ++ "\" created." },
                     [call])

/-- C4.  createCategory is idempotent: when the tag list contains a tag
whose id is the label id of the category (user, -, label and the name,
joined by slashes) it returns created false and issues no subscribe call;
when no such tag exists and the subscribe POST succeeds, it subscribes the
placeholder feed tagged with that label and returns created true. -/
theorem createCategory_idempotent (gs : GReaderSession)
    (tags : List GReaderTag) (subEdit : SubEditCall → Except String Unit)
    (name : String) :
    (tags.any (fun t => t.id == some ("user/-/label/" ++ name)) = true →
      createCategory (.ok gs) (.ok (some tags)) subEdit name =
        .ok ({ created := false,
               message := "Category \"" ++ name ++ "\" already exists." }, [])) ∧
    (tags.any (fun t => t.id == some ("user/-/label/" ++ name)) = false →
      subEdit { ac := "subscribe", s := "feed/" ++ placeholderFeed,
                a := some ("user/-/label/" ++ name), T := gs.editToken } = .ok () →
      createCategory (.ok gs) (.ok (some tags)) subEdit name =
        .ok ({ created := true,
               message := "Category \"" ++ name ++ "\" created." },
             [{ ac := "subscribe", s := "feed/" ++ placeholderFeed,
                a := some ("user/-/label/" ++ name), T := gs.editToken }])) := by
  constructor
  · intro hexists
    simp only [createCategory, Option.getD_some, hexists, if_pos]
  · intro habsent hsub
    simp only [createCategory, Option.getD_some, habsent]
    simp [hsub]

/-- Concrete run of the C4 theorem, mirroring the spec example: with the
label id of the category AI present in the tag list the call returns
created false and issues no subscribe request; with an empty tag list it
subscribes the placeholder feed under that label and returns created true. -/
theorem createCategory_idempotent_witness :
    createCategory (.ok { auth := "a", editToken := "t", base := "b" })
        (.ok (some [{ id := some "user/-/label/AI" }]))
        (fun _ => .ok ()) "AI" =
      .ok ({ created := false, message := "Category \"AI\" already exists." },
           []) ∧
    createCategory (.ok { auth := "a", editToken := "t", base := "b" })
        (.ok (some []))
        (fun _ => .ok ()) "AI" =
      .ok ({ created := true, message := "Category \"AI\" created." },
           [{ ac := "subscribe", s := "feed/" ++ placeholderFeed,
              a := some "user/-/label/AI", T := "t" }]) := by
  constructor
  · have h := (createCategory_idempotent
      { auth := "a", editToken := "t", base := "b" }
      [{ id := some "user/-/label/AI" }] (fun _ => .ok ()) "AI").1 (by decide)
    exact h.trans rfl
  · have h := (createCategory_idempotent
      { auth := "a", editToken := "t", base := "b" }
      [] (fun _ => .ok ()) "AI").2 (by decide) rfl
    exact h.trans rfl

/-!
get_feed_items (src/index.ts lines 152-161 and 576-599).  The handler
parses the feed_id argument with parseInt(feed_id, 10), fetches the raw
response via getFeedItems, then re-filters the items on the caller side by
comparing String(item.feed_id) with String(numericFeedId) and updates
total_items when that field was present.
-/

/-- Value of the longest leading decimal-digit run, or none when the run is
empty. -/
def digitsVal (cs : List Char) : Option Nat :=
  let ds := cs.takeWhile (fun c => c.isDigit)
  if ds.isEmpty then none
  else some (ds.foldl (fun acc c => acc * 10 + (c.toNat - '0'.toNat)) 0)

/-- Models parseInt(s, 10): skip leading whitespace, read an optional sign
and then the longest leading run of decimal digits; an empty run is NaN,
modelled as none. -/
def parseIntJs (s : String) : Option Int :=
  match s.data.dropWhile isJsWs with
  | '-' :: rest => (digitsVal rest).map (fun n => -(n : Int))
  | '+' :: rest => (digitsVal rest).map (fun n => (n : Int))
  | rest => (digitsVal rest).map (fun n => (n : Int))

/-- Models String(numericFeedId) where the number is a parse result: a
failed parse renders as NaN. -/
def jsNumberToString : Option Int → String
  | some n => toString n
  | none => "NaN"

/-- The handler filter predicate String(item.feed_id) === String(numericFeedId):
two integer numbers have equal string renderings exactly when they are
equal, and the NaN rendering of a failed parse never equals the rendering
of an integer feed id, so the comparison is embedded as integer equality
with a failed parse matching nothing. -/
def feedIdMatchesJs (itemFeedId : Int) (numericFeedId : Option Int) : Bool :=
  match numericFeedId with
  | none => false
  | some n => itemFeedId == n

/-- Embedding of FreshRSSClient.getFeedItems (src/index.ts lines 152-161):
one Fever request carrying feed_ids = String(parseInt(feedId, 10)). -/
def getFeedItems (net : FeverCall → TransportResult) (feedIdArg : String) :
    Except ThrownError FreshRSSResponse :=
  request net (.itemsForFeed (jsNumberToString (parseIntJs feedIdArg)))

/-- The caller-side re-filtering step of the get_feed_items tool handler
(src/index.ts lines 580-591): when the response has an items array, keep
only the items whose feed id matches the parsed argument, and when
total_items was present update it to the filtered length. -/
def filterFeedItemsStep (feedIdArg : String) (resp : FreshRSSResponse) :
    FreshRSSResponse :=
  match resp.items with
  | none => resp
  | some its =>
      let numericFeedId := parseIntJs feedIdArg
      let filtered := its.filter (fun it => feedIdMatchesJs it.feed_id numericFeedId)
      { resp with
        items := some filtered,
        total_items := match resp.total_items with
                       | none => none
                       | some _ => some filtered.length }

/-- Embedding of the get_feed_items branch of the CallToolRequestSchema
handler (src/index.ts lines 576-599). -/
def handleGetFeedItems (net : FeverCall → TransportResult) (feedIdArg : String) :
    Except ThrownError FreshRSSResponse :=
  match getFeedItems net feedIdArg with
  | .error e => .error e
  | .ok resp => .ok (filterFeedItemsStep feedIdArg resp)

/-- C6.  When the feed_id argument parses to the integer n and the raw
response resolves with an items array, the handler returns only the items
whose feed id is n, every returned item's feed id equals n, and when the
raw response carried total_items it is updated to the filtered length. -/
theorem handleGetFeedItems_filters (net : FeverCall → TransportResult)
    (feedIdArg : String) (n : Int) (resp : FreshRSSResponse)
    (its : List FreshRSSItem)
    (hp : parseIntJs feedIdArg = some n)
    (hnet : net (.itemsForFeed (jsNumberToString (some n))) = .ok resp)
    (hv : apiVersionTruthy resp.api_version = true)
    (hitems : resp.items = some its) :
    ∃ out, handleGetFeedItems net feedIdArg = .ok out ∧
      out.items = some (its.filter (fun it => it.feed_id == n)) ∧
      (∀ it ∈ (out.items).getD [], it.feed_id = n) ∧
      ((resp.total_items).isSome = true →
        out.total_items = some (its.filter (fun it => it.feed_id == n)).length) := by
  have hcall : handleGetFeedItems net feedIdArg =
      .ok (filterFeedItemsStep feedIdArg resp) := by
    simp only [handleGetFeedItems, getFeedItems, request, hp, hnet, hv, if_pos]
  have hfilter : (fun it => feedIdMatchesJs it.feed_id (parseIntJs feedIdArg)) =
      (fun it : FreshRSSItem => it.feed_id == n) := by
    funext it
    rw [hp]
    rfl
  refine ⟨filterFeedItemsStep feedIdArg resp, hcall, ?_, ?_, ?_⟩
  · simp only [filterFeedItemsStep, hitems]
    rw [hfilter]
  · intro it hit
    simp only [filterFeedItemsStep, hitems] at hit
    rw [hfilter] at hit
    simp only [Option.getD_some] at hit
    have := List.of_mem_filter hit
    simpa using this
  · intro htot
    obtain ⟨t, ht⟩ := Option.isSome_iff_exists.mp htot
    simp only [filterFeedItemsStep, hitems, ht]
    rw [hfilter]

/-- Raw response for the C6 example run: items from feeds 42 and 43. -/
def c6Resp : FreshRSSResponse :=
  { api_version := some 3, auth := some 1, last_refreshed_on_time := some 100,
    total_items := some 3,
    items := some
      [{ id := "a", feed_id := 42, title := "a", author := none, html := "",
         url := "", is_saved := 0, is_read := 0, created_on_time := 0 },
       { id := "b", feed_id := 43, title := "b", author := none, html := "",
         url := "", is_saved := 0, is_read := 0, created_on_time := 0 },
       { id := "c", feed_id := 42, title := "c", author := none, html := "",
         url := "", is_saved := 0, is_read := 1, created_on_time := 0 }],
    unread_item_ids := none }

/-- Network oracle for the C6 example run. -/
def c6Net : FeverCall → TransportResult
  | .itemsForFeed _ => .ok c6Resp
  | _ => .axiosErr "unused"

/-- Concrete run of the C6 theorem: requesting feed 42 on a raw response
with feed ids 42 and 43 keeps exactly the two items of feed 42 and rewrites
total_items to 2. -/
theorem handleGetFeedItems_filters_witness :
    ∃ out, handleGetFeedItems c6Net "42" = .ok out ∧
      out.items = some
        ((c6Resp.items.getD []).filter (fun it => it.feed_id == 42)) ∧
      (∀ it ∈ (out.items).getD [], it.feed_id = 42) ∧
      ((c6Resp.total_items).isSome = true →
        out.total_items =
          some ((c6Resp.items.getD []).filter (fun it => it.feed_id == 42)).length) :=
  handleGetFeedItems_filters c6Net "42" 42 c6Resp (c6Resp.items.getD [])
    (by decide) rfl rfl rfl

end FreshRSS
